import Mathlib

/-!
Shallow embedding of the line-labeling geometry core of `adb_graphics`
(`label_line` and `label_lines` in `adb_graphics/utils.py`).

Points live in data space as pairs of reals.  Python's sequence indexing
(including negative indices and `IndexError`) is modelled by `pyIdx`
returning `Except PyErr`.  The matplotlib collaborators are abstracted:
`Transform.pt` stands for the data-to-device point map applied by the
renderer, and `Transform.transform_angles` for
`ax.transData.transform_angles` (device-space angle of a data-space angle
at a data-space point).  `atan2`/`degrees` mirror Python's `math.atan2`
and `math.degrees` over idealized reals.
-/

open Real

/-- Errors a call can surface: Python's `IndexError` (from sequence
indexing) and `ValueError` (from a failed `int(...)` coercion). -/
inductive PyErr where
  | indexError
  | valueError
deriving DecidableEq, Repr

/-- Python sequence indexing `l[i]` with negative-index wrap-around:
`l[i]` for `0 ≤ i < len`, `l[len + i]` for `-len ≤ i < 0`, and
`IndexError` otherwise. -/
def pyIdx {α : Type} (l : List α) (i : ℤ) : Except PyErr α :=
  if 0 ≤ i then
    match l[i.toNat]? with
    | some a => .ok a
    | none => .error .indexError
  else if -i ≤ (l.length : ℤ) then
    match l[l.length - (-i).toNat]? with
    | some a => .ok a
    | none => .error .indexError
  else .error .indexError

/-- Which end of the line the label goes on: `'bottom'` in the source is
`START`, `'top'` is `END`. -/
inductive LineEnd where
  | START
  | END
deriving DecidableEq, Repr

/-- The anchor selector: an end of the line plus the `offset` keyword
argument (a non-negative index step in from that end). -/
structure Selector where
  end_ : LineEnd
  offset : ℕ
deriving DecidableEq, Repr

/-- The data-to-device transform supplied by the axes object: a point map
and `transform_angles` (device angle of a data angle at a data point). -/
structure Transform where
  pt : ℝ × ℝ → ℝ × ℝ
  transform_angles : ℝ → ℝ × ℝ → ℝ

/-- The identity transform: device space coincides with data space. -/
def idT : Transform where
  pt := fun p => p
  transform_angles := fun a _ => a

/-- Python's `math.atan2 y x`: the angle of the vector `(x, y)` in
`(-π, π]`, in radians. -/
noncomputable def atan2 (y x : ℝ) : ℝ :=
  if 0 < x then arctan (y / x)
  else if x < 0 then
    (if 0 ≤ y then arctan (y / x) + π else arctan (y / x) - π)
  else
    (if 0 < y then π / 2 else if y < 0 then -(π / 2) else 0)

/-- Python's `math.degrees`: radians to degrees. -/
noncomputable def degrees (x : ℝ) : ℝ := x * 180 / π

/-- The anchor index used by `label_line`: `0 + offset` for
`end == 'bottom'`, `-1 - offset` for `end == 'top'` (a Python negative
index). -/
def anchorIndex (sel : Selector) : ℤ :=
  match sel.end_ with
  | .START => (sel.offset : ℤ)
  | .END => -1 - (sel.offset : ℤ)

/-- The index `ip` used by `label_line` for the slope computation:
`1 + offset` for `'bottom'`, `-1 - offset` for `'top'`. -/
def slopeIndex (sel : Selector) : ℤ :=
  match sel.end_ with
  | .START => 1 + (sel.offset : ℤ)
  | .END => -1 - (sel.offset : ℤ)

/-- The data-space slope vector computed by `label_line` when `align` is
set: `(dx, dy) = segment[ip] - segment[ip-1]`. -/
def tangentVec (segment : List (ℝ × ℝ)) (sel : Selector) :
    Except PyErr (ℝ × ℝ) := do
  let p1 ← pyIdx segment (slopeIndex sel)
  let p0 ← pyIdx segment (slopeIndex sel - 1)
  .ok (p1.1 - p0.1, p1.2 - p0.2)

/-- The data-space angle `ang = degrees(atan2(dy, dx))` computed by
`label_line` when `align` is set. -/
noncomputable def dataAngle (segment : List (ℝ × ℝ)) (sel : Selector) :
    Except PyErr ℝ := do
  let v ← tangentVec segment sel
  .ok (degrees (atan2 v.2 v.1))

/-- The device-space angle before the `'top'` adjustment:
`ax.transData.transform_angles(ang, (x, y))`. -/
noncomputable def transAngle (segment : List (ℝ × ℝ)) (sel : Selector)
    (T : Transform) : Except PyErr ℝ := do
  let a ← pyIdx segment (anchorIndex sel)
  let ang ← dataAngle segment sel
  .ok (T.transform_angles ang a)

/-- The placement a call to `label_line` hands to `ax.text`: the anchor
point (in device space, once the renderer applies the transform) and the
`rotation` keyword argument in degrees. -/
structure Placement where
  anchor : ℝ × ℝ
  rotation : ℝ

/-- Shallow embedding of `label_line` (utils.py, lines 96-149), restricted
to its geometric output: resolve the anchor from `end`/`offset`, and when
`align` is set compute the slope angle, transform it, and subtract 180
degrees for the `'top'` end; otherwise the rotation is 0. -/
noncomputable def label_line (segment : List (ℝ × ℝ)) (sel : Selector)
    (T : Transform) (align : Bool) : Except PyErr Placement := do
  let a ← pyIdx segment (anchorIndex sel)
  match align with
  | true => do
    let ang ← dataAngle segment sel
    let trans_angle := T.transform_angles ang a
    match sel.end_ with
    | .END => .ok ⟨T.pt a, trans_angle - 180⟩
    | .START => .ok ⟨T.pt a, trans_angle⟩
  | false => .ok ⟨T.pt a, 0⟩

/-- A value from the `labels` sequence handed to `label_lines`: either a
numeric value (modelled as a rational) or a value `int(...)` cannot
coerce. -/
inductive LabelVal where
  | num (q : ℚ)
  | nonnum
deriving DecidableEq, Repr

/-- Python's `int(...)` on a label value: truncation toward zero for a
numeric value, `ValueError` otherwise. -/
def pyInt : LabelVal → Except PyErr ℤ
  | .num q => .ok (if 0 ≤ q then ⌊q⌋ else ⌈q⌉)
  | .nonnum => .error .valueError

/-- The loop body of `label_lines`: for the `i`-th segment onward, look up
`labels[i]`, coerce it with `int`, and call `label_line` with
`align=True` and the given offset, collecting the placement paired with
the coerced label. -/
noncomputable def label_lines_go (labels : List LabelVal) (T : Transform)
    (off : ℕ) : List (List (ℝ × ℝ)) → ℕ → Except PyErr (List (Placement × ℤ))
  | [], _ => .ok []
  | seg :: rest, i => do
    let lab ← pyIdx labels (i : ℤ)
    let n ← pyInt lab
    let r ← label_line seg ⟨.START, off⟩ T true
    let tail ← label_lines_go labels T off rest (i + 1)
    .ok ((r, n) :: tail)

/-- Shallow embedding of `label_lines` (utils.py, lines 151-175):
enumerate the segments from index 0 and label each one. -/
noncomputable def label_lines (segments : List (List (ℝ × ℝ)))
    (labels : List LabelVal) (T : Transform) (off : ℕ) :
    Except PyErr (List (Placement × ℤ)) :=
  label_lines_go labels T off segments 0

/-- The tangent pair the specification text prescribes, with the vector
`point[tangent_pair[0]] - point[tangent_pair[1]]` where the pair is
`(offset, offset+1)` for START and `(length-1-offset, length-2-offset)`
for END.  Modelled from the spec for comparison with `tangentVec`. -/
def specTangentVec (segment : List (ℝ × ℝ)) (sel : Selector) :
    Except PyErr (ℝ × ℝ) := do
  let i0 : ℤ := match sel.end_ with
    | .START => (sel.offset : ℤ)
    | .END => (segment.length : ℤ) - 1 - (sel.offset : ℤ)
  let i1 : ℤ := match sel.end_ with
    | .START => (sel.offset : ℤ) + 1
    | .END => (segment.length : ℤ) - 2 - (sel.offset : ℤ)
  let p0 ← pyIdx segment i0
  let p1 ← pyIdx segment i1
  .ok (p0.1 - p1.1, p0.2 - p1.2)

-- Basic facts about `pyIdx`.

lemma pyIdx_ok_of_nonneg {α : Type} (l : List α) (i : ℤ) (h0 : 0 ≤ i)
    (h : i.toNat < l.length) :
    pyIdx l i = .ok (l.get ⟨i.toNat, h⟩) := by
  simp [pyIdx, h0, List.getElem?_eq_getElem h]

lemma pyIdx_ok_of_neg {α : Type} (l : List α) (i : ℤ) (h0 : i < 0)
    (h : -i ≤ (l.length : ℤ)) (h2 : l.length - (-i).toNat < l.length) :
    pyIdx l i = .ok (l.get ⟨l.length - (-i).toNat, h2⟩) := by
  have : ¬ 0 ≤ i := by omega
  simp [pyIdx, this, h, List.getElem?_eq_getElem h2]

lemma pyIdx_error_of_ge {α : Type} (l : List α) (i : ℤ) (h0 : 0 ≤ i)
    (h : (l.length : ℤ) ≤ i) :
    pyIdx l i = .error .indexError := by
  have hlen : l.length ≤ i.toNat := by omega
  simp [pyIdx, h0, List.getElem?_eq_none hlen]

lemma pyIdx_error_of_lt {α : Type} (l : List α) (i : ℤ)
    (h : (l.length : ℤ) < -i) :
    pyIdx l i = .error .indexError := by
  have h0 : ¬ 0 ≤ i := by omega
  have h1 : ¬ -i ≤ (l.length : ℤ) := by omega
  simp [pyIdx, h0, h1]

lemma pyIdx_isOk_iff {α : Type} (l : List α) (i : ℤ) :
    (pyIdx l i).isOk = true ↔ -(l.length : ℤ) ≤ i ∧ i < (l.length : ℤ) := by
  constructor
  · intro h
    by_contra hc
    rcases not_and_or.mp hc with hlo | hhi
    · rw [pyIdx_error_of_lt l i (by omega)] at h
      simp [Except.isOk, Except.toBool] at h
    · have h0 : 0 ≤ i := by
        by_contra hneg
        push_neg at hneg
        omega
      rw [pyIdx_error_of_ge l i h0 (by omega)] at h
      simp [Except.isOk, Except.toBool] at h
  · rintro ⟨hlo, hhi⟩
    by_cases h0 : 0 ≤ i
    · rw [pyIdx_ok_of_nonneg l i h0 (by omega)]
      simp [Except.isOk, Except.toBool]
    · push_neg at h0
      rw [pyIdx_ok_of_neg l i h0 (by omega) (by omega)]
      simp [Except.isOk, Except.toBool]

-- Concrete angle evaluations.

lemma atan2_zero_one : atan2 0 1 = 0 := by
  norm_num [atan2]

lemma atan2_one_one : atan2 1 1 = π / 4 := by
  norm_num [atan2, arctan_one]

lemma degrees_zero : degrees 0 = 0 := by
  simp [degrees]

lemma degrees_pi_div_four : degrees (π / 4) = 45 := by
  have hπ : π ≠ 0 := pi_ne_zero
  field_simp [degrees]
  ring

-- Reduction of Except binds as produced by do-notation.

lemma exbind_ok {α β : Type} (a : α) (f : α → Except PyErr β) :
    (Except.ok a >>= f) = f a := rfl

lemma exbind_error {α β : Type} (e : PyErr) (f : α → Except PyErr β) :
    ((Except.error e : Except PyErr α) >>= f) = .error e := rfl

lemma pyIdx_error_imp {α : Type} (l : List α) (i : ℤ) (e : PyErr)
    (h : pyIdx l i = .error e) : e = .indexError := by
  unfold pyIdx at h
  by_cases h0 : 0 ≤ i
  · rw [if_pos h0] at h
    cases hx : l[i.toNat]? with
    | some a => rw [hx] at h; cases h
    | none => rw [hx] at h; exact (Except.error.inj h).symm
  · rw [if_neg h0] at h
    by_cases h1 : -i ≤ (l.length : ℤ)
    · rw [if_pos h1] at h
      cases hx : l[l.length - (-i).toNat]? with
      | some a => rw [hx] at h; cases h
      | none => rw [hx] at h; exact (Except.error.inj h).symm
    · rw [if_neg h1] at h
      exact (Except.error.inj h).symm

-- Evaluation of the anchor access under in-range offsets.

lemma get_idx_congr {α : Type} (l : List α) (a b : ℕ) (hab : a = b)
    (hb : b < l.length) :
    ∀ (ha : a < l.length), l.get ⟨a, ha⟩ = l.get ⟨b, hb⟩ := by
  subst hab
  intro ha
  rfl

lemma pyIdx_anchor_START (seg : List (ℝ × ℝ)) (off : ℕ)
    (h : off < seg.length) :
    pyIdx seg (anchorIndex ⟨.START, off⟩) = .ok (seg.get ⟨off, h⟩) := by
  show pyIdx seg (off : ℤ) = _
  rw [pyIdx_ok_of_nonneg seg (off : ℤ) (by omega) (by omega)]
  congr 1

lemma pyIdx_anchor_END (seg : List (ℝ × ℝ)) (off : ℕ)
    (h : off < seg.length) :
    pyIdx seg (anchorIndex ⟨.END, off⟩) =
      .ok (seg.get ⟨seg.length - 1 - off, by omega⟩) := by
  show pyIdx seg (-1 - (off : ℤ)) = _
  rw [pyIdx_ok_of_neg seg (-1 - (off : ℤ)) (by omega) (by omega) (by omega)]
  rw [get_idx_congr seg _ (seg.length - 1 - off) (by omega) (by omega)]

lemma pyIdx_anchor_START_error (seg : List (ℝ × ℝ)) (off : ℕ)
    (h : seg.length ≤ off) :
    pyIdx seg (anchorIndex ⟨.START, off⟩) = .error .indexError := by
  show pyIdx seg (off : ℤ) = _
  exact pyIdx_error_of_ge seg _ (by omega) (by omega)

lemma pyIdx_anchor_END_error (seg : List (ℝ × ℝ)) (off : ℕ)
    (h : seg.length ≤ off) :
    pyIdx seg (anchorIndex ⟨.END, off⟩) = .error .indexError := by
  show pyIdx seg (-1 - (off : ℤ)) = _
  exact pyIdx_error_of_lt seg _ (by omega)

-- Evaluation of the slope vector under in-range offsets.

lemma tangentVec_START (seg : List (ℝ × ℝ)) (off : ℕ)
    (h : off + 2 ≤ seg.length) :
    tangentVec seg ⟨.START, off⟩ =
      .ok ((seg.get ⟨off + 1, by omega⟩).1 - (seg.get ⟨off, by omega⟩).1,
           (seg.get ⟨off + 1, by omega⟩).2 - (seg.get ⟨off, by omega⟩).2) := by
  have h1 : slopeIndex ⟨.START, off⟩ = 1 + (off : ℤ) := rfl
  unfold tangentVec
  rw [h1]
  rw [pyIdx_ok_of_nonneg seg (1 + (off : ℤ)) (by omega) (by omega)]
  rw [exbind_ok]
  rw [show 1 + (off : ℤ) - 1 = (off : ℤ) by ring]
  rw [pyIdx_ok_of_nonneg seg (off : ℤ) (by omega) (by omega)]
  rw [exbind_ok]
  rw [get_idx_congr seg ((1 + (off : ℤ)).toNat) (off + 1) (by omega) (by omega)]
  rw [get_idx_congr seg (((off : ℤ)).toNat) off (by omega) (by omega)]

lemma tangentVec_END (seg : List (ℝ × ℝ)) (off : ℕ)
    (h : off + 2 ≤ seg.length) :
    tangentVec seg ⟨.END, off⟩ =
      .ok ((seg.get ⟨seg.length - 1 - off, by omega⟩).1 -
             (seg.get ⟨seg.length - 2 - off, by omega⟩).1,
           (seg.get ⟨seg.length - 1 - off, by omega⟩).2 -
             (seg.get ⟨seg.length - 2 - off, by omega⟩).2) := by
  have h1 : slopeIndex ⟨.END, off⟩ = -1 - (off : ℤ) := rfl
  unfold tangentVec
  rw [h1]
  rw [pyIdx_ok_of_neg seg (-1 - (off : ℤ)) (by omega) (by omega) (by omega)]
  rw [exbind_ok]
  rw [show -1 - (off : ℤ) - 1 = -2 - (off : ℤ) by ring]
  rw [pyIdx_ok_of_neg seg (-2 - (off : ℤ)) (by omega) (by omega) (by omega)]
  rw [exbind_ok]
  rw [get_idx_congr seg (seg.length - (-(-1 - (off : ℤ))).toNat)
    (seg.length - 1 - off) (by omega) (by omega)]
  rw [get_idx_congr seg (seg.length - (-(-2 - (off : ℤ))).toNat)
    (seg.length - 2 - off) (by omega) (by omega)]

lemma tangentVec_START_error (seg : List (ℝ × ℝ)) (off : ℕ)
    (h : seg.length < off + 2) :
    tangentVec seg ⟨.START, off⟩ = .error .indexError := by
  have h1 : slopeIndex ⟨.START, off⟩ = 1 + (off : ℤ) := rfl
  unfold tangentVec
  rw [h1, pyIdx_error_of_ge seg (1 + (off : ℤ)) (by omega) (by omega)]
  rw [exbind_error]

lemma tangentVec_END_error (seg : List (ℝ × ℝ)) (off : ℕ)
    (h : seg.length < off + 2) :
    tangentVec seg ⟨.END, off⟩ = .error .indexError := by
  have h1 : slopeIndex ⟨.END, off⟩ = -1 - (off : ℤ) := rfl
  unfold tangentVec
  rw [h1]
  by_cases hL : seg.length ≤ off
  · rw [pyIdx_error_of_lt seg (-1 - (off : ℤ)) (by omega)]
    rw [exbind_error]
  · rw [pyIdx_ok_of_neg seg (-1 - (off : ℤ)) (by omega) (by omega) (by omega)]
    rw [exbind_ok]
    rw [show -1 - (off : ℤ) - 1 = -2 - (off : ℤ) by ring]
    rw [pyIdx_error_of_lt seg (-2 - (off : ℤ)) (by omega)]
    rw [exbind_error]

lemma tangentVec_error_imp (seg : List (ℝ × ℝ)) (sel : Selector) (e : PyErr)
    (h : tangentVec seg sel = .error e) : e = .indexError := by
  unfold tangentVec at h
  cases hx : pyIdx seg (slopeIndex sel) with
  | error e1 =>
    rw [hx, exbind_error] at h
    exact (Except.error.inj h) ▸ pyIdx_error_imp _ _ _ hx
  | ok p1 =>
    rw [hx, exbind_ok] at h
    cases hy : pyIdx seg (slopeIndex sel - 1) with
    | error e2 =>
      rw [hy, exbind_error] at h
      rw [← Except.error.inj h]
      exact pyIdx_error_imp _ _ _ hy
    | ok p0 =>
      rw [hy, exbind_ok] at h
      cases h

-- Lifting tangent facts to the data-space angle.

lemma dataAngle_of_tangent (seg : List (ℝ × ℝ)) (sel : Selector)
    (v : ℝ × ℝ) (h : tangentVec seg sel = .ok v) :
    dataAngle seg sel = .ok (degrees (atan2 v.2 v.1)) := by
  unfold dataAngle
  rw [h, exbind_ok]

lemma dataAngle_of_tangent_error (seg : List (ℝ × ℝ)) (sel : Selector)
    (e : PyErr) (h : tangentVec seg sel = .error e) :
    dataAngle seg sel = .error e := by
  unfold dataAngle
  rw [h, exbind_error]

lemma dataAngle_error_imp (seg : List (ℝ × ℝ)) (sel : Selector) (e : PyErr)
    (h : dataAngle seg sel = .error e) : e = .indexError := by
  unfold dataAngle at h
  cases hx : tangentVec seg sel with
  | error e1 =>
    rw [hx, exbind_error] at h
    exact (Except.error.inj h) ▸ tangentVec_error_imp _ _ _ hx
  | ok v =>
    rw [hx, exbind_ok] at h
    cases h

-- Unfolding `label_line` one bind at a time.

lemma label_line_error_anchor (seg : List (ℝ × ℝ)) (sel : Selector)
    (T : Transform) (al : Bool) (e : PyErr)
    (h : pyIdx seg (anchorIndex sel) = .error e) :
    label_line seg sel T al = .error e := by
  unfold label_line
  rw [h, exbind_error]

lemma label_line_false_eq (seg : List (ℝ × ℝ)) (sel : Selector)
    (T : Transform) (a : ℝ × ℝ)
    (h : pyIdx seg (anchorIndex sel) = .ok a) :
    label_line seg sel T false = .ok ⟨T.pt a, 0⟩ := by
  unfold label_line
  rw [h, exbind_ok]

lemma label_line_true_error_angle (seg : List (ℝ × ℝ)) (sel : Selector)
    (T : Transform) (a : ℝ × ℝ) (e : PyErr)
    (ha : pyIdx seg (anchorIndex sel) = .ok a)
    (hd : dataAngle seg sel = .error e) :
    label_line seg sel T true = .error e := by
  unfold label_line
  rw [ha, exbind_ok]
  show (do
    let ang ← dataAngle seg sel
    let trans_angle := T.transform_angles ang a
    match sel.end_ with
    | .END => (.ok ⟨T.pt a, trans_angle - 180⟩ : Except PyErr Placement)
    | .START => .ok ⟨T.pt a, trans_angle⟩) = .error e
  rw [hd, exbind_error]

lemma label_line_true_eq_START (seg : List (ℝ × ℝ)) (off : ℕ)
    (T : Transform) (a : ℝ × ℝ) (ang : ℝ)
    (ha : pyIdx seg (anchorIndex ⟨.START, off⟩) = .ok a)
    (hd : dataAngle seg ⟨.START, off⟩ = .ok ang) :
    label_line seg ⟨.START, off⟩ T true =
      .ok ⟨T.pt a, T.transform_angles ang a⟩ := by
  unfold label_line
  rw [ha, exbind_ok]
  show (do
    let angv ← dataAngle seg ⟨.START, off⟩
    (.ok ⟨T.pt a, T.transform_angles angv a⟩ : Except PyErr Placement)) = _
  rw [hd, exbind_ok]

lemma label_line_true_eq_END (seg : List (ℝ × ℝ)) (off : ℕ)
    (T : Transform) (a : ℝ × ℝ) (ang : ℝ)
    (ha : pyIdx seg (anchorIndex ⟨.END, off⟩) = .ok a)
    (hd : dataAngle seg ⟨.END, off⟩ = .ok ang) :
    label_line seg ⟨.END, off⟩ T true =
      .ok ⟨T.pt a, T.transform_angles ang a - 180⟩ := by
  unfold label_line
  rw [ha, exbind_ok]
  show (do
    let angv ← dataAngle seg ⟨.END, off⟩
    (.ok ⟨T.pt a, T.transform_angles angv a - 180⟩ : Except PyErr Placement)) = _
  rw [hd, exbind_ok]

-- Full failure characterization of `label_line`.

lemma isOk_ok {α : Type} (a : α) : (Except.ok a : Except PyErr α).isOk = true := rfl

lemma isOk_error {α : Type} (e : PyErr) :
    (Except.error e : Except PyErr α).isOk = false := rfl

lemma label_line_true_error (seg : List (ℝ × ℝ)) (sel : Selector)
    (T : Transform) (h : seg.length < sel.offset + 2) :
    label_line seg sel T true = .error .indexError := by
  obtain ⟨e, off⟩ := sel
  cases e with
  | START =>
    by_cases hoff : off < seg.length
    · exact label_line_true_error_angle seg _ T _ _ (pyIdx_anchor_START seg off hoff)
        (dataAngle_of_tangent_error seg _ _ (tangentVec_START_error seg off h))
    · exact label_line_error_anchor seg _ T true _
        (pyIdx_anchor_START_error seg off (by omega))
  | END =>
    by_cases hoff : off < seg.length
    · exact label_line_true_error_angle seg _ T _ _ (pyIdx_anchor_END seg off hoff)
        (dataAngle_of_tangent_error seg _ _ (tangentVec_END_error seg off h))
    · exact label_line_error_anchor seg _ T true _
        (pyIdx_anchor_END_error seg off (by omega))

lemma label_line_true_isOk (seg : List (ℝ × ℝ)) (sel : Selector)
    (T : Transform) (h : sel.offset + 2 ≤ seg.length) :
    (label_line seg sel T true).isOk = true := by
  obtain ⟨e, off⟩ := sel
  have h' : off + 2 ≤ seg.length := h
  cases e with
  | START =>
    rw [label_line_true_eq_START seg off T _ _
      (pyIdx_anchor_START seg off (by omega))
      (dataAngle_of_tangent seg _ _ (tangentVec_START seg off h))]
    exact isOk_ok _
  | END =>
    rw [label_line_true_eq_END seg off T _ _
      (pyIdx_anchor_END seg off (by omega))
      (dataAngle_of_tangent seg _ _ (tangentVec_END seg off h))]
    exact isOk_ok _

lemma label_line_false_error (seg : List (ℝ × ℝ)) (sel : Selector)
    (T : Transform) (h : seg.length ≤ sel.offset) :
    label_line seg sel T false = .error .indexError := by
  obtain ⟨e, off⟩ := sel
  cases e with
  | START =>
    exact label_line_error_anchor seg _ T false _
      (pyIdx_anchor_START_error seg off h)
  | END =>
    exact label_line_error_anchor seg _ T false _
      (pyIdx_anchor_END_error seg off h)

lemma label_line_false_isOk (seg : List (ℝ × ℝ)) (sel : Selector)
    (T : Transform) (h : sel.offset < seg.length) :
    (label_line seg sel T false).isOk = true := by
  obtain ⟨e, off⟩ := sel
  cases e with
  | START =>
    rw [label_line_false_eq seg _ T _ (pyIdx_anchor_START seg off h)]
    exact isOk_ok _
  | END =>
    rw [label_line_false_eq seg _ T _ (pyIdx_anchor_END seg off h)]
    exact isOk_ok _

lemma label_line_error_imp (seg : List (ℝ × ℝ)) (sel : Selector)
    (T : Transform) (al : Bool) (e : PyErr)
    (h : label_line seg sel T al = .error e) : e = .indexError := by
  unfold label_line at h
  cases hx : pyIdx seg (anchorIndex sel) with
  | error e1 =>
    rw [hx, exbind_error] at h
    exact (Except.error.inj h) ▸ pyIdx_error_imp _ _ _ hx
  | ok a =>
    rw [hx, exbind_ok] at h
    cases al with
    | false => cases h
    | true =>
      cases hd : dataAngle seg sel with
      | error e2 =>
        rw [hd, exbind_error] at h
        exact (Except.error.inj h) ▸ dataAngle_error_imp _ _ _ hd
      | ok ang =>
        rw [hd, exbind_ok] at h
        cases he : sel.end_ with
        | START => rw [he] at h; cases h
        | END => rw [he] at h; cases h

-- Concrete evaluations on the test polylines of the specification.

lemma tangentVec_horiz_START :
    tangentVec [((0:ℝ), (0:ℝ)), (1, 0)] ⟨.START, 0⟩ = .ok (1, 0) := by
  rw [tangentVec_START _ 0 (by norm_num)]
  norm_num [List.get]

lemma tangentVec_horiz_END :
    tangentVec [((0:ℝ), (0:ℝ)), (1, 0)] ⟨.END, 0⟩ = .ok (1, 0) := by
  rw [tangentVec_END _ 0 (by norm_num)]
  norm_num [List.get]

lemma tangentVec_diag_START :
    tangentVec [((0:ℝ), (0:ℝ)), (1, 1)] ⟨.START, 0⟩ = .ok (1, 1) := by
  rw [tangentVec_START _ 0 (by norm_num)]
  norm_num [List.get]

lemma dataAngle_horiz_START :
    dataAngle [((0:ℝ), (0:ℝ)), (1, 0)] ⟨.START, 0⟩ = .ok 0 := by
  rw [dataAngle_of_tangent _ _ _ tangentVec_horiz_START]
  norm_num [atan2_zero_one, degrees_zero]

lemma dataAngle_horiz_END :
    dataAngle [((0:ℝ), (0:ℝ)), (1, 0)] ⟨.END, 0⟩ = .ok 0 := by
  rw [dataAngle_of_tangent _ _ _ tangentVec_horiz_END]
  norm_num [atan2_zero_one, degrees_zero]

lemma dataAngle_diag_START :
    dataAngle [((0:ℝ), (0:ℝ)), (1, 1)] ⟨.START, 0⟩ = .ok 45 := by
  rw [dataAngle_of_tangent _ _ _ tangentVec_diag_START]
  norm_num [atan2_one_one, degrees_pi_div_four]

lemma anchor_horiz_START :
    pyIdx [((0:ℝ), (0:ℝ)), (1, 0)] (anchorIndex ⟨.START, 0⟩) = .ok (0, 0) := by
  rw [pyIdx_anchor_START _ 0 (by norm_num)]
  rfl

lemma anchor_horiz_END :
    pyIdx [((0:ℝ), (0:ℝ)), (1, 0)] (anchorIndex ⟨.END, 0⟩) = .ok (1, 0) := by
  rw [pyIdx_anchor_END _ 0 (by norm_num)]
  norm_num [List.get]

lemma anchor_diag_START :
    pyIdx [((0:ℝ), (0:ℝ)), (1, 1)] (anchorIndex ⟨.START, 0⟩) = .ok (0, 0) := by
  rw [pyIdx_anchor_START _ 0 (by norm_num)]
  rfl

lemma label_line_horiz_START :
    label_line [((0:ℝ), (0:ℝ)), (1, 0)] ⟨.START, 0⟩ idT true = .ok ⟨(0, 0), 0⟩ := by
  rw [label_line_true_eq_START _ 0 idT (0, 0) 0 anchor_horiz_START dataAngle_horiz_START]
  rfl

lemma label_line_horiz_END :
    label_line [((0:ℝ), (0:ℝ)), (1, 0)] ⟨.END, 0⟩ idT true = .ok ⟨(1, 0), -180⟩ := by
  rw [label_line_true_eq_END _ 0 idT (1, 0) 0 anchor_horiz_END dataAngle_horiz_END]
  norm_num [idT]

lemma label_line_diag_START :
    label_line [((0:ℝ), (0:ℝ)), (1, 1)] ⟨.START, 0⟩ idT true = .ok ⟨(0, 0), 45⟩ := by
  rw [label_line_true_eq_START _ 0 idT (0, 0) 45 anchor_diag_START dataAngle_diag_START]
  rfl

lemma transAngle_horiz_END :
    transAngle [((0:ℝ), (0:ℝ)), (1, 0)] ⟨.END, 0⟩ idT = .ok 0 := by
  unfold transAngle
  rw [anchor_horiz_END, exbind_ok, dataAngle_horiz_END, exbind_ok]
  rfl

-- Facts about `label_lines`.

lemma isOk_exists {α : Type} (x : Except PyErr α) (h : x.isOk = true) :
    ∃ a, x = .ok a := by
  cases x with
  | ok a => exact ⟨a, rfl⟩
  | error e => cases h

lemma pyIdx_nat {α : Type} (l : List α) (n : ℕ) (h : n < l.length) :
    pyIdx l (n : ℤ) = .ok (l.get ⟨n, h⟩) := by
  rw [pyIdx_ok_of_nonneg l (n : ℤ) (by omega) (by omega)]
  congr 1

lemma pyIdx_nat_error {α : Type} (l : List α) (n : ℕ) (h : l.length ≤ n) :
    pyIdx l (n : ℤ) = .error .indexError :=
  pyIdx_error_of_ge l (n : ℤ) (by omega) (by omega)

lemma pyIdx_append_left {α : Type} (l extra : List α) (n : ℕ)
    (h : n < l.length) :
    pyIdx (l ++ extra) (n : ℤ) = pyIdx l (n : ℤ) := by
  rw [pyIdx_nat l n h, pyIdx_nat (l ++ extra) n (by simp; omega)]
  congr 1
  simp only [List.get_eq_getElem]
  exact List.getElem_append_left h

lemma label_lines_go_ok (labels : List LabelVal) (T : Transform) (off : ℕ)
    (segs : List (List (ℝ × ℝ))) :
    ∀ (i : ℕ) (res : List (Placement × ℤ)),
      label_lines_go labels T off segs i = .ok res →
      (∀ j, j < segs.length → i + j < labels.length) ∧
      res.length = segs.length ∧
      ∀ j (hj : j < segs.length) (hr : j < res.length),
        ∃ lab, pyIdx labels ((i + j : ℕ) : ℤ) = .ok lab ∧
          pyInt lab = .ok (res.get ⟨j, hr⟩).2 ∧
          label_line (segs.get ⟨j, hj⟩) ⟨.START, off⟩ T true =
            .ok (res.get ⟨j, hr⟩).1 := by
  induction segs with
  | nil =>
    intro i res h
    simp only [label_lines_go] at h
    have hres : res = [] := (Except.ok.inj h).symm
    subst hres
    refine ⟨fun j hj => absurd hj (by simp), rfl, ?_⟩
    intro j hj hr
    exact absurd hj (by simp)
  | cons seg rest ih =>
    intro i res h
    simp only [label_lines_go] at h
    cases hlab : pyIdx labels (i : ℤ) with
    | error e => rw [hlab, exbind_error] at h; cases h
    | ok lab =>
      rw [hlab, exbind_ok] at h
      cases hn : pyInt lab with
      | error e => rw [hn, exbind_error] at h; cases h
      | ok n =>
        rw [hn, exbind_ok] at h
        cases hr0 : label_line seg ⟨.START, off⟩ T true with
        | error e => rw [hr0, exbind_error] at h; cases h
        | ok r =>
          rw [hr0, exbind_ok] at h
          cases ht : label_lines_go labels T off rest (i + 1) with
          | error e => rw [ht, exbind_error] at h; cases h
          | ok tail =>
            rw [ht, exbind_ok] at h
            have hres : res = (r, n) :: tail := (Except.ok.inj h).symm
            subst hres
            obtain ⟨ih1, ih2, ih3⟩ := ih (i + 1) tail ht
            have hilt : i < labels.length := by
              have hok : (pyIdx labels (i : ℤ)).isOk = true := by
                rw [hlab]; rfl
              have := (pyIdx_isOk_iff labels (i : ℤ)).mp hok
              omega
            refine ⟨?_, by simp only [List.length_cons, ih2], ?_⟩
            · intro j hj
              cases j with
              | zero => omega
              | succ k =>
                have := ih1 k (by simp only [List.length_cons] at hj; omega)
                omega
            intro j hj hr
            cases j with
            | zero =>
              refine ⟨lab, by simpa using hlab, hn, hr0⟩
            | succ k =>
              have hk : k < rest.length := by
                simp only [List.length_cons] at hj; omega
              have hkr : k < tail.length := by
                simp only [List.length_cons] at hr; omega
              obtain ⟨lab', h1, h2, h3⟩ := ih3 k hk hkr
              refine ⟨lab', ?_, h2, h3⟩
              have e : i + (k + 1) = (i + 1) + k := by omega
              rw [e]
              exact h1

lemma label_lines_go_append (labels extra : List LabelVal) (T : Transform)
    (off : ℕ) (segs : List (List (ℝ × ℝ))) :
    ∀ (i : ℕ), i + segs.length ≤ labels.length →
      label_lines_go (labels ++ extra) T off segs i =
        label_lines_go labels T off segs i := by
  induction segs with
  | nil => intro i _; simp only [label_lines_go]
  | cons seg rest ih =>
    intro i hi
    simp only [label_lines_go]
    rw [pyIdx_append_left labels extra i (by simp only [List.length_cons] at hi; omega)]
    cases hlab : pyIdx labels (i : ℤ) with
    | error e => rw [exbind_error, exbind_error]
    | ok lab =>
      rw [exbind_ok, exbind_ok]
      cases hn : pyInt lab with
      | error e => rw [exbind_error, exbind_error]
      | ok n =>
        rw [exbind_ok, exbind_ok]
        cases hr0 : label_line seg ⟨.START, off⟩ T true with
        | error e => rw [exbind_error, exbind_error]
        | ok r =>
          rw [exbind_ok, exbind_ok]
          rw [ih (i + 1) (by simp only [List.length_cons] at hi; omega)]

lemma label_lines_go_lookup_error (labels : List LabelVal) (T : Transform)
    (off : ℕ) (seg : List (ℝ × ℝ)) (rest : List (List (ℝ × ℝ))) (i : ℕ)
    (h : labels.length ≤ i) :
    label_lines_go labels T off (seg :: rest) i = .error .indexError := by
  simp only [label_lines_go]
  rw [pyIdx_nat_error labels i h, exbind_error]

lemma label_lines_go_fewer (labels : List LabelVal) (T : Transform)
    (off : ℕ) (segs : List (List (ℝ × ℝ))) :
    ∀ (i : ℕ), i ≤ labels.length → labels.length < i + segs.length →
      (∀ lab ∈ labels, ∃ q, lab = LabelVal.num q) →
      (∀ seg ∈ segs, (label_line seg ⟨.START, off⟩ T true).isOk = true) →
      label_lines_go labels T off segs i = .error .indexError := by
  induction segs with
  | nil =>
    intro i hi hlen _ _
    simp only [List.length_nil] at hlen
    omega
  | cons seg rest ih =>
    intro i hi hlen hnum hplace
    by_cases hib : labels.length ≤ i
    · exact label_lines_go_lookup_error labels T off seg rest i hib
    · push_neg at hib
      simp only [label_lines_go]
      rw [pyIdx_nat labels i hib, exbind_ok]
      obtain ⟨q, hq⟩ := hnum _ (List.get_mem labels i hib)
      rw [hq]
      show (do
        let n ← pyInt (LabelVal.num q)
        let r ← label_line seg ⟨.START, off⟩ T true
        let tail ← label_lines_go labels T off rest (i + 1)
        (.ok ((r, n) :: tail) : Except PyErr (List (Placement × ℤ)))) = _
      rw [show pyInt (LabelVal.num q) = .ok (if 0 ≤ q then ⌊q⌋ else ⌈q⌉) from rfl]
      rw [exbind_ok]
      obtain ⟨r, hr⟩ := isOk_exists _ (hplace seg (by simp))
      rw [hr, exbind_ok]
      rw [ih (i + 1) (by omega) (by simp only [List.length_cons] at hlen; omega)
        hnum (fun s hs => hplace s (by simp [hs]))]
      rw [exbind_error]

lemma transAngle_of (seg : List (ℝ × ℝ)) (sel : Selector) (T : Transform)
    (a : ℝ × ℝ) (ang : ℝ)
    (ha : pyIdx seg (anchorIndex sel) = .ok a)
    (hd : dataAngle seg sel = .ok ang) :
    transAngle seg sel T = .ok (T.transform_angles ang a) := by
  unfold transAngle
  rw [ha, exbind_ok, hd, exbind_ok]

lemma pyInt_seven_halves : pyInt (LabelVal.num (7/2)) = .ok 3 := by
  norm_num [pyInt]

lemma label_lines_single :
    label_lines [[((0:ℝ), (0:ℝ)), (1, 0)]] [LabelVal.num (7/2)] idT 0 =
      .ok [(⟨(0, 0), 0⟩, 3)] := by
  have h0 : pyIdx [LabelVal.num (7/2)] ((0:ℕ) : ℤ) = .ok (LabelVal.num (7/2)) := by
    rw [pyIdx_nat _ 0 (by norm_num)]
    rfl
  unfold label_lines
  simp only [label_lines_go]
  rw [h0, exbind_ok, pyInt_seven_halves, exbind_ok, label_line_horiz_START,
    exbind_ok, exbind_ok]

lemma specTangentVec_horiz_START :
    specTangentVec [((0:ℝ), (0:ℝ)), (1, 0)] ⟨.START, 0⟩ = .ok (-1, 0) := by
  show (do
    let p0 ← pyIdx [((0:ℝ), (0:ℝ)), (1, 0)] (((0:ℕ) : ℤ))
    let p1 ← pyIdx [((0:ℝ), (0:ℝ)), (1, 0)] (((0:ℕ) : ℤ) + 1)
    (.ok (p0.1 - p1.1, p0.2 - p1.2) : Except PyErr (ℝ × ℝ))) = .ok (-1, 0)
  rw [pyIdx_nat _ 0 (by norm_num), exbind_ok]
  rw [pyIdx_ok_of_nonneg _ (((0:ℕ) : ℤ) + 1) (by omega) (by norm_num)]
  rw [exbind_ok]
  norm_num [List.get]

/-- C1 counterexample: for the identity transform and polyline
[(0,0),(1,0)] with align=true and selector END/offset 0, the data-space
angle before the END adjustment is 0 degrees, not 180, and the final
rotation is -180 degrees, not 0. -/
theorem c1_counterexample :
    dataAngle [((0:ℝ), (0:ℝ)), (1, 0)] ⟨.END, 0⟩ = .ok 0 ∧ (0:ℝ) ≠ 180 ∧
    label_line [((0:ℝ), (0:ℝ)), (1, 0)] ⟨.END, 0⟩ idT true =
      .ok ⟨(1, 0), -180⟩ ∧ (-180:ℝ) ≠ 0 :=
  ⟨dataAngle_horiz_END, by norm_num, label_line_horiz_END, by norm_num⟩

/-- C1 (amended): for the identity transform and the polyline
[(0,0),(1,0)] with align=true, selector START and offset 0 give a
computed angle of 0 degrees; selector END and offset 0 give a computed
angle of 0 degrees before the END adjustment and a final rotation of
0 - 180 = -180 degrees after the 180-degree subtraction. -/
theorem c1_horizontal_angles :
    label_line [((0:ℝ), (0:ℝ)), (1, 0)] ⟨.START, 0⟩ idT true =
      .ok ⟨(0, 0), 0⟩ ∧
    transAngle [((0:ℝ), (0:ℝ)), (1, 0)] ⟨.END, 0⟩ idT = .ok 0 ∧
    label_line [((0:ℝ), (0:ℝ)), (1, 0)] ⟨.END, 0⟩ idT true =
      .ok ⟨(1, 0), 0 - 180⟩ :=
  ⟨label_line_horiz_START, transAngle_horiz_END, by
    rw [label_line_horiz_END]; norm_num⟩

/-- C2 counterexample: for the polyline [(0,0),(1,0)] with selector
START/offset 0, the slope vector the code uses is (1,0) (anchor-ward
difference point[1] - point[0]), while the vector prescribed by the
claimed tangent pair (offset, offset+1) is (-1,0); they differ. -/
theorem c2_counterexample :
    tangentVec [((0:ℝ), (0:ℝ)), (1, 0)] ⟨.START, 0⟩ = .ok (1, 0) ∧
    specTangentVec [((0:ℝ), (0:ℝ)), (1, 0)] ⟨.START, 0⟩ = .ok (-1, 0) ∧
    ((1:ℝ), (0:ℝ)) ≠ ((-1:ℝ), (0:ℝ)) :=
  ⟨tangentVec_horiz_START, specTangentVec_horiz_START, by norm_num⟩

/-- C2 (amended): for every polyline of length ≥ 2 and in-range offset,
the data-space tangent vector used with align=true is
point[offset+1] - point[offset] for selector START (tangent pair
(offset+1, offset)) and point[length-1-offset] - point[length-2-offset]
for selector END; the data-space angle is atan2(dy, dx) of that vector,
in degrees. -/
theorem c2_tangent_amended (seg : List (ℝ × ℝ)) (off : ℕ)
    (h : off + 2 ≤ seg.length) :
    tangentVec seg ⟨.START, off⟩ =
      .ok ((seg.get ⟨off + 1, by omega⟩).1 - (seg.get ⟨off, by omega⟩).1,
           (seg.get ⟨off + 1, by omega⟩).2 - (seg.get ⟨off, by omega⟩).2) ∧
    tangentVec seg ⟨.END, off⟩ =
      .ok ((seg.get ⟨seg.length - 1 - off, by omega⟩).1 -
             (seg.get ⟨seg.length - 2 - off, by omega⟩).1,
           (seg.get ⟨seg.length - 1 - off, by omega⟩).2 -
             (seg.get ⟨seg.length - 2 - off, by omega⟩).2) ∧
    (∀ (sel : Selector) (v : ℝ × ℝ), tangentVec seg sel = .ok v →
      dataAngle seg sel = .ok (degrees (atan2 v.2 v.1))) :=
  ⟨tangentVec_START seg off h, tangentVec_END seg off h,
   fun sel v hv => dataAngle_of_tangent seg sel v hv⟩

/-- C2 witness: the amended tangent computation evaluated on the
polyline [(0,0),(1,0)] with offset 0. -/
theorem c2_tangent_amended_witness :
    0 + 2 ≤ ([((0:ℝ), (0:ℝ)), (1, 0)] : List (ℝ × ℝ)).length ∧
    tangentVec [((0:ℝ), (0:ℝ)), (1, 0)] ⟨.START, 0⟩ =
      .ok (([((0:ℝ), (0:ℝ)), (1, 0)].get ⟨0 + 1, by norm_num⟩).1 -
             ([((0:ℝ), (0:ℝ)), (1, 0)].get ⟨0, by norm_num⟩).1,
           ([((0:ℝ), (0:ℝ)), (1, 0)].get ⟨0 + 1, by norm_num⟩).2 -
             ([((0:ℝ), (0:ℝ)), (1, 0)].get ⟨0, by norm_num⟩).2) :=
  ⟨by norm_num, (c2_tangent_amended [((0:ℝ), (0:ℝ)), (1, 0)] 0 (by norm_num)).1⟩

/-- C3 counterexample: with align=false the tangent-pair indices are
never accessed, so label_line on the 2-point polyline [(0,0),(1,0)] with
selector START/offset 1 succeeds although the tangent-pair index
offset+1 = 2 lies outside [0, length-1]. -/
theorem c3_counterexample :
    label_line [((0:ℝ), (0:ℝ)), (1, 0)] ⟨.START, 1⟩ idT false =
      .ok ⟨(1, 0), 0⟩ ∧
    ¬ ((1:ℕ) + 1 ≤ ([((0:ℝ), (0:ℝ)), (1, 0)] : List (ℝ × ℝ)).length - 1) := by
  constructor
  · have ha : pyIdx [((0:ℝ), (0:ℝ)), (1, 0)] (anchorIndex ⟨.START, 1⟩) =
        .ok (1, 0) := by
      rw [pyIdx_anchor_START _ 1 (by norm_num)]
      rfl
    rw [label_line_false_eq _ _ idT _ ha]
    rfl
  · norm_num

/-- C3 (amended): with align=true, label_line raises IndexError exactly
when offset+2 exceeds the polyline length (anchor or tangent-pair access
out of range); with align=false the tangent-pair indices are not
accessed and it raises IndexError exactly when offset ≥ length; in every
case IndexError is the only failure mode. -/
theorem c3_failure_amended (seg : List (ℝ × ℝ)) (sel : Selector)
    (T : Transform) :
    (seg.length < sel.offset + 2 →
      label_line seg sel T true = .error .indexError) ∧
    (sel.offset + 2 ≤ seg.length →
      (label_line seg sel T true).isOk = true) ∧
    (seg.length ≤ sel.offset →
      label_line seg sel T false = .error .indexError) ∧
    (sel.offset < seg.length →
      (label_line seg sel T false).isOk = true) ∧
    (∀ (al : Bool) (e : PyErr),
      label_line seg sel T al = .error e → e = .indexError) :=
  ⟨fun h => label_line_true_error seg sel T h,
   fun h => label_line_true_isOk seg sel T h,
   fun h => label_line_false_error seg sel T h,
   fun h => label_line_false_isOk seg sel T h,
   fun al e h => label_line_error_imp seg sel T al e h⟩

/-- C3 witness: the failure characterization evaluated on the empty
polyline (failure) and on [(0,0),(1,0)] with offset 0 (success), for
both align settings, plus the error-classification conjunct at a
concrete error. -/
theorem c3_failure_amended_witness :
    (([] : List (ℝ × ℝ)).length < 0 + 2 ∧
      label_line ([] : List (ℝ × ℝ)) ⟨.START, 0⟩ idT true =
        .error .indexError) ∧
    (0 + 2 ≤ ([((0:ℝ), (0:ℝ)), (1, 0)] : List (ℝ × ℝ)).length ∧
      (label_line [((0:ℝ), (0:ℝ)), (1, 0)] ⟨.START, 0⟩ idT true).isOk = true) ∧
    (([] : List (ℝ × ℝ)).length ≤ 0 ∧
      label_line ([] : List (ℝ × ℝ)) ⟨.START, 0⟩ idT false =
        .error .indexError) ∧
    (0 < ([((0:ℝ), (0:ℝ)), (1, 0)] : List (ℝ × ℝ)).length ∧
      (label_line [((0:ℝ), (0:ℝ)), (1, 0)] ⟨.START, 0⟩ idT false).isOk = true) ∧
    PyErr.indexError = PyErr.indexError :=
  ⟨⟨by norm_num, (c3_failure_amended [] ⟨.START, 0⟩ idT).1 (by norm_num)⟩,
   ⟨by norm_num, (c3_failure_amended _ ⟨.START, 0⟩ idT).2.1 (by norm_num)⟩,
   ⟨by norm_num, (c3_failure_amended [] ⟨.START, 0⟩ idT).2.2.1 (by norm_num)⟩,
   ⟨by norm_num, (c3_failure_amended _ ⟨.START, 0⟩ idT).2.2.2.1 (by norm_num)⟩,
   (c3_failure_amended [] ⟨.START, 0⟩ idT).2.2.2.2 true .indexError
     ((c3_failure_amended [] ⟨.START, 0⟩ idT).1 (by norm_num))⟩

/-- C4: label_lines over n polylines with a label sequence of length ≥ n
produces exactly n placement results, the i-th obtained from labels[i]
by calling label_line with align=true; integer labels are passed through
int() unchanged; excess labels are ignored; with fewer labels than
polylines it fails, and when every supplied label is numeric and every
placement succeeds the failure is the IndexError of the label lookup. -/
theorem c4_label_lines (segs : List (List (ℝ × ℝ)))
    (labels extra : List LabelVal) (T : Transform) (off : ℕ) :
    (∀ res, label_lines segs labels T off = .ok res →
      res.length = segs.length ∧
      ∀ j (hj : j < segs.length) (hr : j < res.length),
        ∃ lab, pyIdx labels (j : ℤ) = .ok lab ∧
          pyInt lab = .ok (res.get ⟨j, hr⟩).2 ∧
          label_line (segs.get ⟨j, hj⟩) ⟨.START, off⟩ T true =
            .ok (res.get ⟨j, hr⟩).1) ∧
    (∀ n : ℤ, pyInt (.num (n : ℚ)) = .ok n) ∧
    (segs.length ≤ labels.length →
      label_lines segs (labels ++ extra) T off =
        label_lines segs labels T off) ∧
    (labels.length < segs.length →
      ∃ e, label_lines segs labels T off = .error e) ∧
    (labels.length < segs.length →
      (∀ lab ∈ labels, ∃ q, lab = LabelVal.num q) →
      (∀ seg ∈ segs, (label_line seg ⟨.START, off⟩ T true).isOk = true) →
      label_lines segs labels T off = .error .indexError) := by
  refine ⟨?_, ?_, ?_, ?_, ?_⟩
  · intro res h
    obtain ⟨h1, h2, h3⟩ := label_lines_go_ok labels T off segs 0 res h
    refine ⟨h2, ?_⟩
    intro j hj hr
    obtain ⟨lab, hl, hi, hp⟩ := h3 j hj hr
    refine ⟨lab, ?_, hi, hp⟩
    norm_num at hl
    exact hl
  · intro n
    show Except.ok (if 0 ≤ (n:ℚ) then ⌊(n:ℚ)⌋ else ⌈(n:ℚ)⌉) = .ok n
    split_ifs <;> simp
  · intro hle
    exact label_lines_go_append labels extra T off segs 0 (by omega)
  · intro hlt
    cases hres : label_lines segs labels T off with
    | error e => exact ⟨e, rfl⟩
    | ok res =>
      obtain ⟨h1, _, _⟩ := label_lines_go_ok labels T off segs 0 res hres
      have := h1 labels.length (by omega)
      omega
  · intro hlt hnum hplace
    exact label_lines_go_fewer labels T off segs 0 (by omega) (by omega)
      hnum hplace

/-- C4 witness: a single polyline with a single label places one result;
a single polyline with no labels fails; an excess label is ignored. -/
theorem c4_label_lines_witness :
    (([((⟨((0:ℝ), (0:ℝ)), (0:ℝ)⟩ : Placement), (3:ℤ))]).length =
      ([[((0:ℝ), (0:ℝ)), (1, 0)]] : List (List (ℝ × ℝ))).length) ∧
    (∃ e, label_lines [[((0:ℝ), (0:ℝ)), (1, 0)]] ([] : List LabelVal) idT 0 =
      .error e) ∧
    (label_lines [[((0:ℝ), (0:ℝ)), (1, 0)]]
        ([LabelVal.num (7/2)] ++ [LabelVal.num 1]) idT 0 =
      label_lines [[((0:ℝ), (0:ℝ)), (1, 0)]] [LabelVal.num (7/2)] idT 0) :=
  ⟨((c4_label_lines [[((0:ℝ), (0:ℝ)), (1, 0)]] [LabelVal.num (7/2)] [] idT 0).1
      [(⟨(0, 0), 0⟩, 3)] label_lines_single).1,
   (c4_label_lines [[((0:ℝ), (0:ℝ)), (1, 0)]] [] [] idT 0).2.2.2.1 (by norm_num),
   (c4_label_lines [[((0:ℝ), (0:ℝ)), (1, 0)]] [LabelVal.num (7/2)]
      [LabelVal.num 1] idT 0).2.2.1 (by norm_num)⟩

/-- C5: for every polyline of length ≥ 2, selector START with offset 0
anchors at polyline[0] and selector END with offset 0 anchors at
polyline[last] (post-transform); with align=true the END rotation equals
the un-ended transformed angle minus 180 degrees, modulo 360. -/
theorem c5_endpoints (seg : List (ℝ × ℝ)) (T : Transform)
    (h : 2 ≤ seg.length) :
    (∀ al : Bool, ∃ r, label_line seg ⟨.START, 0⟩ T al = .ok r ∧
      r.anchor = T.pt (seg.get ⟨0, by omega⟩)) ∧
    (∀ al : Bool, ∃ r, label_line seg ⟨.END, 0⟩ T al = .ok r ∧
      r.anchor = T.pt (seg.get ⟨seg.length - 1, by omega⟩)) ∧
    (∃ r u, label_line seg ⟨.END, 0⟩ T true = .ok r ∧
      transAngle seg ⟨.END, 0⟩ T = .ok u ∧
      ∃ k : ℤ, r.rotation = u - 180 + 360 * k) := by
  have h0 : (0:ℕ) < seg.length := by omega
  have haS := pyIdx_anchor_START seg 0 h0
  have haE := pyIdx_anchor_END seg 0 h0
  have hdS := dataAngle_of_tangent _ _ _ (tangentVec_START seg 0 (by omega))
  have hdE := dataAngle_of_tangent _ _ _ (tangentVec_END seg 0 (by omega))
  refine ⟨?_, ?_, ?_⟩
  · intro al
    cases al with
    | false => exact ⟨_, label_line_false_eq seg _ T _ haS, rfl⟩
    | true => exact ⟨_, label_line_true_eq_START seg 0 T _ _ haS hdS, rfl⟩
  · intro al
    cases al with
    | false => exact ⟨_, label_line_false_eq seg _ T _ haE, rfl⟩
    | true => exact ⟨_, label_line_true_eq_END seg 0 T _ _ haE hdE, rfl⟩
  · exact ⟨_, _, label_line_true_eq_END seg 0 T _ _ haE hdE,
      transAngle_of seg ⟨.END, 0⟩ T _ _ haE hdE, 0, by ring⟩

/-- C5 witness: the endpoint property evaluated on the polyline
[(0,0),(1,0)] with the identity transform. -/
theorem c5_endpoints_witness :
    2 ≤ ([((0:ℝ), (0:ℝ)), (1, 0)] : List (ℝ × ℝ)).length ∧
    (∃ r, label_line [((0:ℝ), (0:ℝ)), (1, 0)] ⟨.START, 0⟩ idT true = .ok r ∧
      r.anchor = idT.pt ([((0:ℝ), (0:ℝ)), (1, 0)].get ⟨0, by norm_num⟩)) :=
  ⟨by norm_num, (c5_endpoints _ idT (by norm_num)).1 true⟩

/-- C6: for the identity transform with align=true, polyline
[(0,0),(1,1)], selector START, offset 0, the data-space angle computed
is exactly 45 degrees, and so is the resulting rotation. -/
theorem c6_diagonal_angle :
    dataAngle [((0:ℝ), (0:ℝ)), (1, 1)] ⟨.START, 0⟩ = .ok 45 ∧
    label_line [((0:ℝ), (0:ℝ)), (1, 1)] ⟨.START, 0⟩ idT true =
      .ok ⟨(0, 0), 45⟩ :=
  ⟨dataAngle_diag_START, label_line_diag_START⟩

/-- C7: for every polyline, selector, and transform, a successful call
with align=false yields rotation angle 0, regardless of the polyline's
shape. -/
theorem c7_align_false (seg : List (ℝ × ℝ)) (sel : Selector)
    (T : Transform) (r : Placement)
    (h : label_line seg sel T false = .ok r) : r.rotation = 0 := by
  cases hx : pyIdx seg (anchorIndex sel) with
  | error e =>
    rw [label_line_error_anchor seg sel T false e hx] at h
    cases h
  | ok a =>
    rw [label_line_false_eq seg sel T a hx] at h
    have hr : r = ⟨T.pt a, 0⟩ := (Except.ok.inj h).symm
    rw [hr]

/-- C7 witness: align=false on the polyline [(0,0),(1,0)] yields
rotation 0. -/
theorem c7_align_false_witness :
    label_line [((0:ℝ), (0:ℝ)), (1, 0)] ⟨.START, 0⟩ idT false =
      .ok ⟨(0, 0), 0⟩ ∧
    Placement.rotation ⟨((0:ℝ), (0:ℝ)), 0⟩ = 0 := by
  have h : label_line [((0:ℝ), (0:ℝ)), (1, 0)] ⟨.START, 0⟩ idT false =
      .ok ⟨(0, 0), 0⟩ := by
    rw [label_line_false_eq _ _ idT _ anchor_horiz_START]
    rfl
  exact ⟨h, c7_align_false _ _ idT _ h⟩

/-- C8: for every polyline with at least 2 points and every selector
with offset < length - 1, every array access of label_line is in
bounds for both ends and both align settings, so no IndexError is
reachable under this precondition. -/
theorem c8_inbounds (seg : List (ℝ × ℝ)) (sel : Selector) (T : Transform)
    (al : Bool) (h2 : 2 ≤ seg.length) (hoff : sel.offset < seg.length - 1) :
    (label_line seg sel T al).isOk = true := by
  cases al with
  | true => exact label_line_true_isOk seg sel T (by omega)
  | false => exact label_line_false_isOk seg sel T (by omega)

/-- C8 witness: the in-bounds property evaluated at the END selector
with offset 0 on the polyline [(0,0),(1,0)]. -/
theorem c8_inbounds_witness :
    2 ≤ ([((0:ℝ), (0:ℝ)), (1, 0)] : List (ℝ × ℝ)).length ∧
    0 < ([((0:ℝ), (0:ℝ)), (1, 0)] : List (ℝ × ℝ)).length - 1 ∧
    (label_line [((0:ℝ), (0:ℝ)), (1, 0)] ⟨.END, 0⟩ idT true).isOk = true :=
  ⟨by norm_num, by norm_num,
   c8_inbounds _ ⟨.END, 0⟩ idT true (by norm_num) (by norm_num)⟩

/-- C9: label_line is deterministic: two calls with identical inputs
produce identical results; the embedding is a pure function of its
arguments with no hidden state. -/
theorem c9_deterministic (seg1 seg2 : List (ℝ × ℝ)) (sel1 sel2 : Selector)
    (T1 T2 : Transform) (al1 al2 : Bool) (h1 : seg1 = seg2)
    (h2 : sel1 = sel2) (h3 : T1 = T2) (h4 : al1 = al2) :
    label_line seg1 sel1 T1 al1 = label_line seg2 sel2 T2 al2 := by
  subst h1
  subst h2
  subst h3
  subst h4
  rfl

/-- C9 witness: determinism instantiated at a concrete call. -/
theorem c9_deterministic_witness :
    label_line [((0:ℝ), (0:ℝ)), (1, 0)] ⟨.START, 0⟩ idT true =
      label_line [((0:ℝ), (0:ℝ)), (1, 0)] ⟨.START, 0⟩ idT true :=
  c9_deterministic _ _ _ _ _ _ _ _ rfl rfl rfl rfl

lemma label_lines_go_valueError (labels : List LabelVal) (T : Transform)
    (off : ℕ) (segs : List (List (ℝ × ℝ))) :
    ∀ (i k : ℕ), k < segs.length →
      pyIdx labels ((i + k : ℕ) : ℤ) = .ok LabelVal.nonnum →
      (∀ j, j < k → ∃ q, pyIdx labels ((i + j : ℕ) : ℤ) = .ok (LabelVal.num q)) →
      (∀ seg ∈ segs, (label_line seg ⟨.START, off⟩ T true).isOk = true) →
      label_lines_go labels T off segs i = .error .valueError := by
  induction segs with
  | nil =>
    intro i k hk _ _ _
    simp only [List.length_nil] at hk
    omega
  | cons seg rest ih =>
    intro i k hk hnon hnum hplace
    simp only [label_lines_go]
    cases k with
    | zero =>
      have e : (i + 0 : ℕ) = i := by omega
      rw [e] at hnon
      rw [hnon, exbind_ok]
      rw [show pyInt LabelVal.nonnum = .error .valueError from rfl, exbind_error]
    | succ k1 =>
      obtain ⟨q, hq⟩ := hnum 0 (by omega)
      have e : (i + 0 : ℕ) = i := by omega
      rw [e] at hq
      rw [hq, exbind_ok]
      rw [show pyInt (LabelVal.num q) = .ok (if 0 ≤ q then ⌊q⌋ else ⌈q⌉) from rfl,
        exbind_ok]
      obtain ⟨r, hr⟩ := isOk_exists _ (hplace seg (by simp))
      rw [hr, exbind_ok]
      have htail : label_lines_go labels T off rest (i + 1) =
          .error .valueError := by
        apply ih (i + 1) k1 (by simp only [List.length_cons] at hk; omega)
        · have e2 : ((i + 1) + k1 : ℕ) = i + (k1 + 1) := by omega
          rw [e2]
          exact hnon
        · intro j hj
          obtain ⟨q1, hq1⟩ := hnum (j + 1) (by omega)
          refine ⟨q1, ?_⟩
          have e3 : ((i + 1) + j : ℕ) = i + (j + 1) := by omega
          rw [e3]
          exact hq1
        · intro s hs
          exact hplace s (by simp [hs])
      rw [htail, exbind_error]

/-- C10: label_lines coerces every consumed label with int() before
pairing, truncating any fractional part toward zero: on any successful
run, for every polyline index i the consumed label labels[i] is numeric
and the paired value is its truncation, not the value as supplied; and
a non-coercible label at any position the loop reaches makes the call
fail with ValueError instead of producing a placement. -/
theorem c10_label_coercion :
    (∀ (segs : List (List (ℝ × ℝ))) (labels : List LabelVal) (T : Transform)
      (off : ℕ) (res : List (Placement × ℤ)),
      label_lines segs labels T off = .ok res →
      ∀ j (hj : j < segs.length) (hr : j < res.length),
        ∃ q, pyIdx labels (j : ℤ) = .ok (LabelVal.num q) ∧
          (res.get ⟨j, hr⟩).2 = (if 0 ≤ q then ⌊q⌋ else ⌈q⌉)) ∧
    (∀ (segs : List (List (ℝ × ℝ))) (labels : List LabelVal) (T : Transform)
      (off : ℕ) (k : ℕ), k < segs.length →
      pyIdx labels (k : ℤ) = .ok LabelVal.nonnum →
      (∀ j, j < k → ∃ q, pyIdx labels (j : ℤ) = .ok (LabelVal.num q)) →
      (∀ seg ∈ segs, (label_line seg ⟨.START, off⟩ T true).isOk = true) →
      label_lines segs labels T off = .error .valueError) := by
  constructor
  · intro segs labels T off res h j hj hr
    obtain ⟨h1, h2, h3⟩ := label_lines_go_ok labels T off segs 0 res h
    obtain ⟨lab, hl, hi, _⟩ := h3 j hj hr
    norm_num at hl
    cases lab with
    | nonnum => simp [pyInt] at hi
    | num q =>
      refine ⟨q, hl, ?_⟩
      exact (Except.ok.inj hi).symm
  · intro segs labels T off k hk hnon hnum hplace
    apply label_lines_go_valueError labels T off segs 0 k hk
    · have e : (0 + k : ℕ) = k := by omega
      rw [e]
      exact hnon
    · intro j hj
      obtain ⟨q, hq⟩ := hnum j hj
      refine ⟨q, ?_⟩
      have e : (0 + j : ℕ) = j := by omega
      rw [e]
      exact hq
    · exact hplace

/-- C10 witness: on a concrete successful run the label 7/2 at index 0
is paired as its truncation 3, and a non-coercible label at a consumed
position makes the concrete call fail with ValueError. -/
theorem c10_label_coercion_witness :
    (label_lines [[((0:ℝ), (0:ℝ)), (1, 0)]] [LabelVal.num (7/2)] idT 0 =
      .ok [(⟨(0, 0), 0⟩, 3)]) ∧
    (∃ q, pyIdx [LabelVal.num (7/2)] ((0:ℕ) : ℤ) = .ok (LabelVal.num q) ∧
      (([((⟨((0:ℝ), (0:ℝ)), (0:ℝ)⟩ : Placement), (3:ℤ))]).get
          ⟨0, by norm_num⟩).2 = (if 0 ≤ q then ⌊q⌋ else ⌈q⌉)) ∧
    (label_lines [[((0:ℝ), (0:ℝ)), (1, 0)]] [LabelVal.nonnum] idT 0 =
      .error .valueError) :=
  ⟨label_lines_single,
   (c10_label_coercion).1 _ _ idT 0 _ label_lines_single 0 (by norm_num)
     (by norm_num),
   (c10_label_coercion).2 _ _ idT 0 0 (by norm_num)
     (by rw [pyIdx_nat _ 0 (by simp)]; rfl)
     (fun j hj => absurd hj (by omega))
     (fun seg hs => by
       rw [List.mem_singleton] at hs
       rw [hs]
       exact label_line_true_isOk _ ⟨.START, 0⟩ idT (by norm_num))⟩
